import Mathlib

/-!
Verification of the Express router in `src/background.js` of rapid-prereview.

The two streaming search handlers (`GET /preprint`, lines 73-103, and
`GET /action`, lines 245-274) have identical bodies: they set the
`content-type` header synchronously, obtain an upstream stream `s` from the
store (`req.db.streamPreprints` / `req.db.streamActions`), install a
`response` listener (copying the upstream status code to `res`) and an
`error` listener (guarded by a `hasErrored` flag, forwarding the first error
to `next` and then calling `s.destroy()` inside `try ... catch noop`), and
pipe `s` both into a `concatStream` sink (whose completion callback parses
the accumulated buffer with `JSON.parse` and hands the value to `req.cache`)
and into `res`.

We embed the handler as a state machine driven by a trace of stream events,
following Node.js stream semantics for the library parts:
  * `pipe` forwards every `data` chunk to each destination that is still
    piped, in pipe order;
  * on a source `error`, `pipe` unpipes all destinations and does not end
    them (so the `concatStream` callback never fires on the error path);
  * on source end, `pipe` calls `end()` on each still-piped destination:
    the `concatStream` sink then fires its callback with the full buffer,
    and `res` completes normally;
  * when the destination `res` emits `close` (client disconnect), `pipe`
    unpipes `res` only; the source and the other destination are untouched;
  * `s.destroy()` may itself throw; the handler swallows that in a
    `try { } catch { }` with an empty body.
`JSON.parse` and the possibility that `destroy` throws are external to the
repository, so they are parameters of the model: `parse` returns `none`
when `JSON.parse` would throw, and `destroyThrows` says whether
`s.destroy()` raises.
-/

namespace RapidPrereview

/-- Events observable by a streaming search handler: the upstream stream's
`response` (HTTP status), `data` (a chunk of body bytes), `error` and end
events, and the client response sink being closed by the remote peer. -/
inductive Ev : Type where
  | response (statusCode : Nat)
  | data (chunk : List Nat)
  | error (e : Nat)
  | eos
  | resClose
  deriving DecidableEq

/-- The observable state of one streaming request: everything the handler
code in `GET /preprint` / `GET /action` reads or writes.  `nextCalls`
records the arguments of every `next(err)` call, `resBytes` the body bytes
written to `res`, `concatBuf` the bytes accumulated by the `concatStream`
sink, `cacheWrites` the values handed to `req.cache`, and `uncaught`
whether an exception escaped all repository code (nothing in the handler
catches a `JSON.parse` failure inside the concat callback). -/
structure GwState : Type where
  contentType : Option String
  status : Option Nat
  hasErrored : Bool
  nextCalls : List Nat
  resBytes : List Nat
  resEnded : Bool
  resClosed : Bool
  resPiped : Bool
  concatPiped : Bool
  concatBuf : List Nat
  cacheWrites : List (List Nat)
  destroyed : Bool
  destroyAttempted : Bool
  uncaught : Bool
  deriving DecidableEq

/-- Request state after the synchronous prefix of the handler ran:
`res.setHeader('content-type', 'application/json')` has been executed,
the listeners are installed and both `s.pipe(concatStream(...))` and
`s.pipe(res)` are in place; no event has been delivered yet. -/
def initGw : GwState :=
  { contentType := some "application/json"
    status := none
    hasErrored := false
    nextCalls := []
    resBytes := []
    resEnded := false
    resClosed := false
    resPiped := true
    concatPiped := true
    concatBuf := []
    cacheWrites := []
    destroyed := false
    destroyAttempted := false
    uncaught := false }

/-- One stream event processed by the handler's listeners and by the pipe
machinery, exactly as wired in lines 73-103 / 245-274 of `background.js`. -/
def step (parse : List Nat → Option (List Nat)) (destroyThrows : Bool)
    (st : GwState) (ev : Ev) : GwState :=
  match ev with
  | .response c => { st with status := some c }
  | .data chunk =>
      { st with
        concatBuf := if st.concatPiped then st.concatBuf ++ chunk else st.concatBuf
        resBytes := if st.resPiped then st.resBytes ++ chunk else st.resBytes }
  | .error e =>
      let st1 :=
        if st.hasErrored then st
        else { st with hasErrored := true, nextCalls := st.nextCalls ++ [e] }
      { st1 with
        destroyAttempted := true
        destroyed := if destroyThrows then st1.destroyed else true
        resPiped := false
        concatPiped := false }
  | .eos =>
      let st1 :=
        if st.concatPiped then
          match parse st.concatBuf with
          | some v => { st with cacheWrites := st.cacheWrites ++ [v], concatPiped := false }
          | none => { st with uncaught := true, concatPiped := false }
        else st
      if st1.resPiped then { st1 with resEnded := true, resPiped := false } else st1
  | .resClose => { st with resClosed := true, resPiped := false }

/-- Run the streaming handler (the common body of `GET /preprint` and
`GET /action`) on a full trace of stream events. -/
def runGw (parse : List Nat → Option (List Nat)) (destroyThrows : Bool)
    (tr : List Ev) : GwState :=
  tr.foldl (step parse destroyThrows) initGw

/-- Concatenation of the body chunks of a trace, in arrival order. -/
def dataBytes : List Ev → List Nat
  | [] => []
  | Ev.data c :: rest => c ++ dataBytes rest
  | _ :: rest => dataBytes rest

/-- Events a successful, fully drained stream emits before its end event. -/
def isBodyEv : Ev → Bool
  | .response _ => true
  | .data _ => true
  | _ => false

/-- A trivial stand-in for `JSON.parse` that never throws; used to
instantiate the `parse` parameter in concrete witnesses. -/
def idParse : List Nat → Option (List Nat) := fun b => some b

/-- Invariant behind the `hasErrored` guard: before the first error event
no `next` call happened, and afterwards exactly one happened. -/
def errorInv (st : GwState) : Prop :=
  (st.hasErrored = true → st.nextCalls.length = 1) ∧
    (st.hasErrored = false → st.nextCalls = [])

lemma step_errorInv (parse : List Nat → Option (List Nat)) (dt : Bool)
    (st : GwState) (ev : Ev) (h : errorInv st) :
    errorInv (step parse dt st ev) := by
  obtain ⟨h1, h2⟩ := h
  cases ev with
  | response c => exact ⟨h1, h2⟩
  | data chunk => exact ⟨h1, h2⟩
  | error e =>
      cases hE : st.hasErrored with
      | true => simp only [step, hE, if_true]; exact ⟨fun _ => h1 hE, by simp⟩
      | false =>
          simp only [step, hE, Bool.false_eq_true, if_false]
          refine ⟨fun _ => ?_, by simp⟩
          simp [h2 hE]
  | eos =>
      simp only [step]
      split
      · split <;> split <;> exact ⟨h1, h2⟩
      · split <;> exact ⟨h1, h2⟩
  | resClose => exact ⟨h1, h2⟩

lemma foldl_errorInv (parse : List Nat → Option (List Nat)) (dt : Bool) :
    ∀ (tr : List Ev) (st : GwState), errorInv st →
      errorInv (tr.foldl (step parse dt) st) := by
  intro tr
  induction tr with
  | nil => intro st h; simpa using h
  | cons ev rest ih =>
      intro st h
      simpa using ih (step parse dt st ev) (step_errorInv parse dt st ev h)

lemma step_hasErrored_mono (parse : List Nat → Option (List Nat)) (dt : Bool)
    (st : GwState) (ev : Ev) (h : st.hasErrored = true) :
    (step parse dt st ev).hasErrored = true := by
  cases ev with
  | response c => exact h
  | data chunk => exact h
  | error e => simp [step, h]
  | eos =>
      simp only [step]
      split
      · split <;> split <;> simpa using h
      · split <;> simpa using h
  | resClose => exact h

lemma foldl_hasErrored_mono (parse : List Nat → Option (List Nat)) (dt : Bool) :
    ∀ (tr : List Ev) (st : GwState), st.hasErrored = true →
      (tr.foldl (step parse dt) st).hasErrored = true := by
  intro tr
  induction tr with
  | nil => intro st h; simpa using h
  | cons ev rest ih =>
      intro st h
      simpa using ih (step parse dt st ev) (step_hasErrored_mono parse dt st ev h)

lemma runGw_hasErrored_of_mem (parse : List Nat → Option (List Nat)) (dt : Bool)
    (tr : List Ev) (e : Nat) (h : Ev.error e ∈ tr) :
    (runGw parse dt tr).hasErrored = true := by
  obtain ⟨t1, t2, rfl⟩ := List.append_of_mem h
  unfold runGw
  rw [List.foldl_append, List.foldl_cons]
  apply foldl_hasErrored_mono
  have hE : (t1.foldl (step parse dt) initGw).hasErrored = true ∨
      (t1.foldl (step parse dt) initGw).hasErrored = false := by
    cases (t1.foldl (step parse dt) initGw).hasErrored <;> simp
  rcases hE with hE | hE <;> simp [step, hE]

/-- Claim C1: on the streaming search endpoints (`GET /preprint` and
`GET /action`), however many `error` events the upstream stream emits, the
surrounding request lifecycle observes at most one `next(err)` call — and
exactly one as soon as at least one error event occurs. -/
theorem stream_error_signaled_at_most_once
    (parse : List Nat → Option (List Nat)) (dt : Bool) (tr : List Ev) :
    (runGw parse dt tr).nextCalls.length ≤ 1 ∧
      (∀ e : Nat, Ev.error e ∈ tr → (runGw parse dt tr).nextCalls.length = 1) := by
  have hInv : errorInv (runGw parse dt tr) := by
    apply foldl_errorInv
    exact ⟨by simp [initGw], by simp [initGw]⟩
  obtain ⟨h1, h2⟩ := hInv
  constructor
  · cases hE : (runGw parse dt tr).hasErrored with
    | true => simp [h1 hE]
    | false => simp [h2 hE]
  · intro e he
    exact h1 (runGw_hasErrored_of_mem parse dt tr e he)

/-- Witness for C1: a trace emitting three error events yields exactly one
outward `next` call. -/
theorem stream_error_signaled_at_most_once_witness :
    (runGw idParse false [Ev.error 3, Ev.error 4, Ev.error 5]).nextCalls.length = 1 :=
  (stream_error_signaled_at_most_once idParse false
    [Ev.error 3, Ev.error 4, Ev.error 5]).2 3 (by decide)

/-- Status carried by `res` after a run of body events: the last `response`
event wins (the handler runs `res.status(response.statusCode)` on each). -/
def lastStatus (body : List Ev) (s : Option Nat) : Option Nat :=
  body.foldl (fun acc e => match e with | .response c => some c | _ => acc) s

@[simp] lemma lastStatus_nil (s : Option Nat) : lastStatus [] s = s := rfl

@[simp] lemma lastStatus_cons_response (c : Nat) (rest : List Ev) (s : Option Nat) :
    lastStatus (Ev.response c :: rest) s = lastStatus rest (some c) := rfl

@[simp] lemma lastStatus_cons_data (ch : List Nat) (rest : List Ev) (s : Option Nat) :
    lastStatus (Ev.data ch :: rest) s = lastStatus rest s := rfl

@[simp] lemma dataBytes_nil : dataBytes [] = [] := rfl

@[simp] lemma dataBytes_cons_response (c : Nat) (rest : List Ev) :
    dataBytes (Ev.response c :: rest) = dataBytes rest := rfl

@[simp] lemma dataBytes_cons_data (ch : List Nat) (rest : List Ev) :
    dataBytes (Ev.data ch :: rest) = ch ++ dataBytes rest := rfl

/-- Effect of a run of pure body events (`response`/`data`) on a state whose
concat sink is still piped: the status follows the last `response` event,
both sinks accumulate the body bytes (the live sink only while still
piped), and every other field is untouched. -/
lemma run_body (parse : List Nat → Option (List Nat)) (dt : Bool) :
    ∀ (body : List Ev) (st : GwState),
      (∀ e ∈ body, isBodyEv e = true) → st.concatPiped = true →
      body.foldl (step parse dt) st =
        { st with
          status := lastStatus body st.status
          concatBuf := st.concatBuf ++ dataBytes body
          resBytes := st.resBytes ++ if st.resPiped then dataBytes body else [] } := by
  intro body
  induction body with
  | nil => intro st h hC; simp
  | cons ev rest ih =>
      intro st h hC
      have hev : isBodyEv ev = true := h ev (by simp)
      have hrest : ∀ e ∈ rest, isBodyEv e = true := fun e he => h e (by simp [he])
      cases ev with
      | response c =>
          rw [List.foldl_cons, ih _ hrest (by simp [step, hC])]
          simp [step]
      | data chunk =>
          rw [List.foldl_cons, ih _ hrest (by simp [step, hC])]
          cases hR : st.resPiped with
          | true => simp [step, hC, hR]
          | false => simp [step, hC, hR]
      | error e => simp [isBodyEv] at hev
      | eos => simp [isBodyEv] at hev
      | resClose => simp [isBodyEv] at hev

/-- Claim C2: for every successful (error-free, fully drained) streamed
response on `GET /preprint` / `GET /action`, the bytes accumulated in the
`concatStream` cache buffer are byte-for-byte the bytes piped to the client
response, and the response completes normally. -/
theorem cache_bytes_equal_response_bytes
    (parse : List Nat → Option (List Nat)) (dt : Bool) (body : List Ev)
    (h : ∀ e ∈ body, isBodyEv e = true) :
    (runGw parse dt (body ++ [Ev.eos])).concatBuf = dataBytes body ∧
      (runGw parse dt (body ++ [Ev.eos])).resBytes = dataBytes body ∧
      (runGw parse dt (body ++ [Ev.eos])).resEnded = true := by
  unfold runGw
  rw [List.foldl_append, run_body parse dt body initGw h (by simp [initGw])]
  cases hP : parse (initGw.concatBuf ++ dataBytes body) with
  | some v => simp [step, initGw, hP] at hP ⊢
  | none => simp [step, initGw, hP] at hP ⊢

/-- Witness for C2 on a concrete three-event body. -/
theorem cache_bytes_equal_response_bytes_witness :
    (runGw idParse false
        ([Ev.response 200, Ev.data [1], Ev.data [2, 3]] ++ [Ev.eos])).concatBuf =
        dataBytes [Ev.response 200, Ev.data [1], Ev.data [2, 3]] ∧
      (runGw idParse false
          ([Ev.response 200, Ev.data [1], Ev.data [2, 3]] ++ [Ev.eos])).resBytes =
        dataBytes [Ev.response 200, Ev.data [1], Ev.data [2, 3]] ∧
      (runGw idParse false
          ([Ev.response 200, Ev.data [1], Ev.data [2, 3]] ++ [Ev.eos])).resEnded = true :=
  cache_bytes_equal_response_bytes idParse false
    [Ev.response 200, Ev.data [1], Ev.data [2, 3]] (by decide)

/-- The error-signaling core of a request state: the `next` calls, the
uncaught-exception flag, the `hasErrored` guard, and the concat sink's pipe
flag and buffer (the data those fields are computed from).  Whether
`s.destroy()` throws can influence none of these. -/
def teeCore (st : GwState) : List Nat × Bool × Bool × Bool × List Nat :=
  (st.nextCalls, st.uncaught, st.hasErrored, st.concatPiped, st.concatBuf)

lemma step_teeCore (parse : List Nat → Option (List Nat)) (dt1 dt2 : Bool)
    (st1 st2 : GwState) (ev : Ev) (h : teeCore st1 = teeCore st2) :
    teeCore (step parse dt1 st1 ev) = teeCore (step parse dt2 st2 ev) := by
  simp only [teeCore, Prod.mk.injEq] at h
  obtain ⟨hn, hu, hh, hcp, hcb⟩ := h
  have hn2 : st2.nextCalls = st1.nextCalls := hn.symm
  have hu2 : st2.uncaught = st1.uncaught := hu.symm
  have hh2 : st2.hasErrored = st1.hasErrored := hh.symm
  have hcp2 : st2.concatPiped = st1.concatPiped := hcp.symm
  have hcb2 : st2.concatBuf = st1.concatBuf := hcb.symm
  cases ev with
  | response c => simp [step, teeCore, hn2, hu2, hh2, hcp2, hcb2]
  | data chunk => simp [step, teeCore, hn2, hu2, hh2, hcp2, hcb2]
  | error e =>
      cases hE : st1.hasErrored with
      | true => simp [step, teeCore, hE, hn2, hu2, hh2, hcp2, hcb2]
      | false => simp [step, teeCore, hE, hn2, hu2, hh2, hcp2, hcb2]
  | eos =>
      cases hC : st1.concatPiped with
      | false =>
          cases hR1 : st1.resPiped <;> cases hR2 : st2.resPiped <;>
            simp [step, teeCore, hC, hR1, hR2, hn2, hu2, hh2, hcp2, hcb2]
      | true =>
          cases hP : parse st1.concatBuf with
          | some v =>
              cases hR1 : st1.resPiped <;> cases hR2 : st2.resPiped <;>
                simp [step, teeCore, hC, hP, hR1, hR2, hn2, hu2, hh2, hcp2, hcb2]
          | none =>
              cases hR1 : st1.resPiped <;> cases hR2 : st2.resPiped <;>
                simp [step, teeCore, hC, hP, hR1, hR2, hn2, hu2, hh2, hcp2, hcb2]
  | resClose => simp [step, teeCore, hn2, hu2, hh2, hcp2, hcb2]

lemma foldl_teeCore (parse : List Nat → Option (List Nat)) (dt1 dt2 : Bool) :
    ∀ (tr : List Ev) (st1 st2 : GwState), teeCore st1 = teeCore st2 →
      teeCore (tr.foldl (step parse dt1) st1) =
        teeCore (tr.foldl (step parse dt2) st2) := by
  intro tr
  induction tr with
  | nil => intro st1 st2 h; simpa using h
  | cons ev rest ih =>
      intro st1 st2 h
      simpa using ih _ _ (step_teeCore parse dt1 dt2 st1 st2 ev h)

lemma step_destroyAttempted_mono (parse : List Nat → Option (List Nat)) (dt : Bool)
    (st : GwState) (ev : Ev) (h : st.destroyAttempted = true) :
    (step parse dt st ev).destroyAttempted = true := by
  cases ev with
  | response c => exact h
  | data chunk => exact h
  | error e => simp [step]
  | eos =>
      simp only [step]
      split
      · split <;> split <;> simpa using h
      · split <;> simpa using h
  | resClose => exact h

lemma foldl_destroyAttempted_mono (parse : List Nat → Option (List Nat)) (dt : Bool) :
    ∀ (tr : List Ev) (st : GwState), st.destroyAttempted = true →
      (tr.foldl (step parse dt) st).destroyAttempted = true := by
  intro tr
  induction tr with
  | nil => intro st h; simpa using h
  | cons ev rest ih =>
      intro st h
      simpa using ih (step parse dt st ev) (step_destroyAttempted_mono parse dt st ev h)

/-- Claim C3: after an upstream error is signaled, `s.destroy()` is
attempted, and a secondary error thrown by that teardown is swallowed by
the `try { } catch { }`: the run in which `destroy` throws signals exactly
the same `next` calls as the run in which it succeeds, and raises no
additional uncaught exception. -/
theorem destroy_error_swallowed
    (parse : List Nat → Option (List Nat)) (dt : Bool) (tr : List Ev) (e : Nat)
    (h : Ev.error e ∈ tr) :
    (runGw parse dt tr).destroyAttempted = true ∧
      (runGw parse dt tr).nextCalls = (runGw parse false tr).nextCalls ∧
      (runGw parse dt tr).uncaught = (runGw parse false tr).uncaught := by
  have hcore : teeCore (runGw parse dt tr) = teeCore (runGw parse false tr) :=
    foldl_teeCore parse dt false tr initGw initGw rfl
  simp only [teeCore, Prod.mk.injEq] at hcore
  refine ⟨?_, hcore.1, hcore.2.1⟩
  obtain ⟨t1, t2, rfl⟩ := List.append_of_mem h
  unfold runGw
  rw [List.foldl_append, List.foldl_cons]
  apply foldl_destroyAttempted_mono
  simp [step]

/-- Witness for C3: with a throwing `destroy`, a two-error trace still has
the teardown attempted and the same single signaled error as the
non-throwing run. -/
theorem destroy_error_swallowed_witness :
    (runGw idParse true [Ev.error 7, Ev.error 8]).destroyAttempted = true ∧
      (runGw idParse true [Ev.error 7, Ev.error 8]).nextCalls =
        (runGw idParse false [Ev.error 7, Ev.error 8]).nextCalls ∧
      (runGw idParse true [Ev.error 7, Ev.error 8]).uncaught =
        (runGw idParse false [Ev.error 7, Ev.error 8]).uncaught :=
  destroy_error_swallowed idParse true [Ev.error 7, Ev.error 8] 7 (by decide)

lemma step_error_fields (parse : List Nat → Option (List Nat)) (dt : Bool)
    (st : GwState) (e : Nat) :
    (step parse dt st (Ev.error e)).status = st.status ∧
      (step parse dt st (Ev.error e)).resBytes = st.resBytes ∧
      (step parse dt st (Ev.error e)).contentType = st.contentType ∧
      (step parse dt st (Ev.error e)).cacheWrites = st.cacheWrites := by
  cases hE : st.hasErrored <;> simp [step, hE]

lemma step_eos_fields (parse : List Nat → Option (List Nat)) (dt : Bool)
    (st : GwState) :
    (step parse dt st Ev.eos).status = st.status ∧
      (step parse dt st Ev.eos).resBytes = st.resBytes ∧
      (step parse dt st Ev.eos).contentType = st.contentType ∧
      (step parse dt st Ev.eos).hasErrored = st.hasErrored ∧
      (step parse dt st Ev.eos).nextCalls = st.nextCalls := by
  simp only [step]
  split
  · split <;> split <;> simp
  · split <;> simp

lemma step_contentType (parse : List Nat → Option (List Nat)) (dt : Bool)
    (st : GwState) (ev : Ev) :
    (step parse dt st ev).contentType = st.contentType := by
  cases ev with
  | response c => rfl
  | data chunk => rfl
  | error e => exact (step_error_fields parse dt st e).2.2.1
  | eos => exact (step_eos_fields parse dt st).2.2.1
  | resClose => rfl

lemma foldl_contentType (parse : List Nat → Option (List Nat)) (dt : Bool) :
    ∀ (tr : List Ev) (st : GwState),
      (tr.foldl (step parse dt) st).contentType = st.contentType := by
  intro tr
  induction tr with
  | nil => intro st; simp
  | cons ev rest ih =>
      intro st
      rw [List.foldl_cons, ih, step_contentType]

lemma step_status_isSome (parse : List Nat → Option (List Nat)) (dt : Bool)
    (st : GwState) (ev : Ev) (h : st.status.isSome = true) :
    (step parse dt st ev).status.isSome = true := by
  cases ev with
  | response c => simp [step]
  | data chunk => exact h
  | error e => rw [(step_error_fields parse dt st e).1]; exact h
  | eos => rw [(step_eos_fields parse dt st).1]; exact h
  | resClose => exact h

/-- Whether, scanning a trace, every `data` event is preceded by a
`response` event (the upstream `response` event precedes all body data for
a real HTTP response stream); `seen` says whether a `response` event was
already seen. -/
def respSeen : Bool → List Ev → Bool
  | _, [] => true
  | seen, Ev.data _ :: rest => seen && respSeen seen rest
  | _, Ev.response _ :: rest => respSeen true rest
  | seen, _ :: rest => respSeen seen rest

lemma respSeen_of_append :
    ∀ (xs ys : List Ev) (s : Bool), respSeen s (xs ++ ys) = true →
      respSeen s xs = true := by
  intro xs
  induction xs with
  | nil => intro ys s _; rfl
  | cons ev rest ih =>
      intro ys s h
      cases ev with
      | response c =>
          simp only [List.cons_append, respSeen] at h ⊢
          exact ih ys true h
      | data chunk =>
          simp only [List.cons_append, respSeen, Bool.and_eq_true] at h ⊢
          exact ⟨h.1, ih ys s h.2⟩
      | error e =>
          simp only [List.cons_append, respSeen] at h ⊢
          exact ih ys s h
      | eos =>
          simp only [List.cons_append, respSeen] at h ⊢
          exact ih ys s h
      | resClose =>
          simp only [List.cons_append, respSeen] at h ⊢
          exact ih ys s h

lemma run_status_before_bytes (parse : List Nat → Option (List Nat)) (dt : Bool) :
    ∀ (pre : List Ev) (s : Bool) (st : GwState),
      respSeen s pre = true →
      (s = true → st.status.isSome = true) →
      (st.resBytes ≠ [] → st.status.isSome = true) →
      ((pre.foldl (step parse dt) st).resBytes ≠ [] →
        (pre.foldl (step parse dt) st).status.isSome = true) := by
  intro pre
  induction pre with
  | nil => intro s st _ _ hb; simpa using hb
  | cons ev rest ih =>
      intro s st h hs hb
      rw [List.foldl_cons]
      cases ev with
      | response c =>
          simp only [respSeen] at h
          exact ih true _ h (fun _ => by simp [step]) (fun _ => by simp [step])
      | data chunk =>
          simp only [respSeen, Bool.and_eq_true] at h
          have hst : st.status.isSome = true := hs h.1
          exact ih s _ h.2 (fun _ => hst) (fun _ => hst)
      | error e =>
          simp only [respSeen] at h
          refine ih s _ h ?_ ?_
          · intro hss; rw [(step_error_fields parse dt st e).1]; exact hs hss
          · intro hbb
            rw [(step_error_fields parse dt st e).1]
            rw [(step_error_fields parse dt st e).2.1] at hbb
            exact hb hbb
      | eos =>
          simp only [respSeen] at h
          refine ih s _ h ?_ ?_
          · intro hss; rw [(step_eos_fields parse dt st).1]; exact hs hss
          · intro hbb
            rw [(step_eos_fields parse dt st).1]
            rw [(step_eos_fields parse dt st).2.1] at hbb
            exact hb hbb
      | resClose =>
          simp only [respSeen] at h
          exact ih s _ h hs hb

/-- Claim C4: on the streaming search endpoints, for any trace in which the
upstream `response` event precedes all body data (as it does for an HTTP
response stream), at every point of the request at which at least one body
byte has been forwarded to `res`, the upstream status code has already been
set on `res` and the `content-type` header is already
`application/json`. -/
theorem status_set_before_first_body_byte
    (parse : List Nat → Option (List Nat)) (dt : Bool) (tr : List Ev)
    (h : respSeen false tr = true) (pre suf : List Ev) (hsplit : tr = pre ++ suf)
    (hb : (runGw parse dt pre).resBytes ≠ []) :
    (runGw parse dt pre).status.isSome = true ∧
      (runGw parse dt pre).contentType = some "application/json" := by
  subst hsplit
  have hpre : respSeen false pre = true := respSeen_of_append pre suf false h
  constructor
  · exact run_status_before_bytes parse dt pre false initGw hpre
      (by simp) (by simp [initGw]) hb
  · rw [runGw, foldl_contentType]; rfl

/-- Witness for C4 on a concrete response-then-data trace. -/
theorem status_set_before_first_body_byte_witness :
    (runGw idParse false [Ev.response 200, Ev.data [1]]).status.isSome = true ∧
      (runGw idParse false [Ev.response 200, Ev.data [1]]).contentType =
        some "application/json" :=
  status_set_before_first_body_byte idParse false [Ev.response 200, Ev.data [1]]
    (by decide) [Ev.response 200, Ev.data [1]] [] rfl (by decide)

lemma step_cacheWrites_of_ne_eos (parse : List Nat → Option (List Nat)) (dt : Bool)
    (st : GwState) (ev : Ev) (h : ev ≠ Ev.eos) :
    (step parse dt st ev).cacheWrites = st.cacheWrites := by
  cases ev with
  | response c => rfl
  | data chunk => rfl
  | error e => exact (step_error_fields parse dt st e).2.2.2
  | eos => exact absurd rfl h
  | resClose => rfl

lemma foldl_cacheWrites_no_eos (parse : List Nat → Option (List Nat)) (dt : Bool) :
    ∀ (tr : List Ev) (st : GwState), (∀ ev ∈ tr, ev ≠ Ev.eos) →
      (tr.foldl (step parse dt) st).cacheWrites = st.cacheWrites := by
  intro tr
  induction tr with
  | nil => intro st _; simp
  | cons ev rest ih =>
      intro st h
      rw [List.foldl_cons, ih _ (fun x hx => h x (by simp [hx])),
        step_cacheWrites_of_ne_eos parse dt st ev (h ev (by simp))]

lemma step_concatPiped_false (parse : List Nat → Option (List Nat)) (dt : Bool)
    (st : GwState) (ev : Ev) (h : st.concatPiped = false) :
    (step parse dt st ev).concatPiped = false ∧
      (step parse dt st ev).cacheWrites = st.cacheWrites := by
  cases ev with
  | response c => exact ⟨h, rfl⟩
  | data chunk => exact ⟨h, rfl⟩
  | error e => cases hE : st.hasErrored <;> simp [step, hE, h]
  | eos => cases hR : st.resPiped <;> simp [step, h, hR]
  | resClose => exact ⟨h, rfl⟩

lemma foldl_concatPiped_false (parse : List Nat → Option (List Nat)) (dt : Bool) :
    ∀ (tr : List Ev) (st : GwState), st.concatPiped = false →
      (tr.foldl (step parse dt) st).concatPiped = false ∧
        (tr.foldl (step parse dt) st).cacheWrites = st.cacheWrites := by
  intro tr
  induction tr with
  | nil => intro st h; exact ⟨by simpa using h, by simp⟩
  | cons ev rest ih =>
      intro st h
      obtain ⟨h1, h2⟩ := step_concatPiped_false parse dt st ev h
      rw [List.foldl_cons]
      obtain ⟨g1, g2⟩ := ih _ h1
      exact ⟨g1, by rw [g2, h2]⟩

/-- Claim C5: if the upstream stream errors before completing (no end event
precedes the error), the `concatStream` completion callback — and hence
`req.cache` — is never invoked: no cache write occurs on the failed path. -/
theorem no_cache_write_on_error_path
    (parse : List Nat → Option (List Nat)) (dt : Bool) (t1 t2 : List Ev) (e : Nat)
    (h1 : ∀ ev ∈ t1, ev ≠ Ev.eos) :
    (runGw parse dt (t1 ++ Ev.error e :: t2)).cacheWrites = [] := by
  unfold runGw
  rw [List.foldl_append, List.foldl_cons]
  have hc1 : (t1.foldl (step parse dt) initGw).cacheWrites = [] := by
    rw [foldl_cacheWrites_no_eos parse dt t1 initGw h1]; rfl
  have hcp : (step parse dt (t1.foldl (step parse dt) initGw) (Ev.error e)).concatPiped
      = false := by
    cases hE : (t1.foldl (step parse dt) initGw).hasErrored <;> simp [step, hE]
  obtain ⟨_, g2⟩ := foldl_concatPiped_false parse dt t2 _ hcp
  rw [g2, (step_error_fields parse dt _ e).2.2.2, hc1]

/-- Witness for C5: a stream that sends some data, then errors twice and is
(artificially) ended, still commits nothing to the cache. -/
theorem no_cache_write_on_error_path_witness :
    (runGw idParse false
        ([Ev.response 500, Ev.data [1]] ++ Ev.error 9 :: [Ev.error 10, Ev.eos])).cacheWrites
      = [] :=
  no_cache_write_on_error_path idParse false [Ev.response 500, Ev.data [1]]
    [Ev.error 10, Ev.eos] 9 (by decide)

/-- A stand-in for `JSON.parse` on a buffer that is not valid JSON: it
always throws.  Used to instantiate the `parse` parameter in witnesses. -/
def noneParse : List Nat → Option (List Nat) := fun _ => none

/-- Counterexample to C6 as stated: a suppressed cache write is NOT the
only effect of a parse failure.  The cache-commit callback
`buffer => req.cache(JSON.parse(buffer))` contains no `try`/`catch` and no
logging, so on a concretely drained stream whose buffer fails to parse the
`JSON.parse` exception escapes all repository code uncaught (in the model,
`uncaught = true`) in addition to the cache write being suppressed. -/
theorem parse_failure_claim_counterexample :
    (runGw noneParse false [Ev.response 200, Ev.data [7], Ev.eos]).uncaught = true ∧
      (runGw noneParse false [Ev.response 200, Ev.data [7], Ev.eos]).cacheWrites = [] := by
  decide

/-- Claim C6 as amended: when the fully buffered body of a successful
stream fails to parse (`JSON.parse` throws inside the `concatStream`
callback), the client-visible outcome is untouched — the full body was
delivered and the response completed normally, with no error forwarded —
and the cache write is suppressed; but the failure is neither caught nor
logged by the handler: the parse exception escapes repository code as an
uncaught exception. -/
theorem parse_failure_suppresses_cache_write_but_escapes
    (parse : List Nat → Option (List Nat)) (dt : Bool) (body : List Ev)
    (h : ∀ e ∈ body, isBodyEv e = true) (hp : parse (dataBytes body) = none) :
    (runGw parse dt (body ++ [Ev.eos])).resBytes = dataBytes body ∧
      (runGw parse dt (body ++ [Ev.eos])).resEnded = true ∧
      (runGw parse dt (body ++ [Ev.eos])).nextCalls = [] ∧
      (runGw parse dt (body ++ [Ev.eos])).cacheWrites = [] ∧
      (runGw parse dt (body ++ [Ev.eos])).uncaught = true := by
  unfold runGw
  rw [List.foldl_append, run_body parse dt body initGw h (by simp [initGw])]
  simp [step, initGw, hp]

/-- Witness for the amended C6: a drained two-chunk body whose buffer fails
to parse is still fully delivered, nothing is cached, and the parse
exception escapes uncaught. -/
theorem parse_failure_suppresses_cache_write_but_escapes_witness :
    (runGw noneParse false
        ([Ev.response 200, Ev.data [1, 2]] ++ [Ev.eos])).resBytes =
        dataBytes [Ev.response 200, Ev.data [1, 2]] ∧
      (runGw noneParse false
          ([Ev.response 200, Ev.data [1, 2]] ++ [Ev.eos])).resEnded = true ∧
      (runGw noneParse false
          ([Ev.response 200, Ev.data [1, 2]] ++ [Ev.eos])).nextCalls = [] ∧
      (runGw noneParse false
          ([Ev.response 200, Ev.data [1, 2]] ++ [Ev.eos])).cacheWrites = [] ∧
      (runGw noneParse false
          ([Ev.response 200, Ev.data [1, 2]] ++ [Ev.eos])).uncaught = true :=
  parse_failure_suppresses_cache_write_but_escapes noneParse false
    [Ev.response 200, Ev.data [1, 2]] (by decide) (by decide)

/-- A stand-in for `JSON.parse` that succeeds exactly on the two-byte
buffer of the JSON text consisting of bytes 91 and 93 (an empty JSON
array), as `JSON.parse` does, and throws on the other buffers occurring in
the concrete traces below. -/
def braceParse : List Nat → Option (List Nat) :=
  fun b => if b = [91, 93] then some b else none

/-- Counterexample to C7: the handler installs no `close` listener on
`res`, so when the client disconnects mid-stream the pipe machinery merely
unpipes `res`; the upstream stream is never destroyed, the concat sink
keeps draining, and on upstream completion a cache entry IS created. -/
theorem client_disconnect_claim_counterexample :
    (runGw braceParse false
        [Ev.response 200, Ev.data [91], Ev.resClose, Ev.data [93], Ev.eos]).destroyed
      = false ∧
      (runGw braceParse false
          [Ev.response 200, Ev.data [91], Ev.resClose, Ev.data [93], Ev.eos]).cacheWrites
        = [[91, 93]] := by decide

/-- Claim C7 as amended: if the client response sink is closed by the
remote peer before upstream completion, the response sink stops receiving
bytes, but the upstream stream is NOT terminated: the buffering sink keeps
receiving every remaining byte and, on successful upstream completion, the
cache-commit callback is invoked with the full buffered body (so a
subsequent lookup of the key finds an entry rather than a miss); the
response is never ended normally. -/
theorem client_disconnect_amended
    (parse : List Nat → Option (List Nat)) (dt : Bool) (pre mid : List Ev)
    (hpre : ∀ e ∈ pre, isBodyEv e = true) (hmid : ∀ e ∈ mid, isBodyEv e = true) :
    (runGw parse dt (pre ++ Ev.resClose :: (mid ++ [Ev.eos]))).destroyed = false ∧
      (runGw parse dt (pre ++ Ev.resClose :: (mid ++ [Ev.eos]))).resBytes =
        dataBytes pre ∧
      (runGw parse dt (pre ++ Ev.resClose :: (mid ++ [Ev.eos]))).concatBuf =
        dataBytes pre ++ dataBytes mid ∧
      (runGw parse dt (pre ++ Ev.resClose :: (mid ++ [Ev.eos]))).cacheWrites =
        (parse (dataBytes pre ++ dataBytes mid)).toList ∧
      (runGw parse dt (pre ++ Ev.resClose :: (mid ++ [Ev.eos]))).resEnded = false := by
  unfold runGw
  rw [List.foldl_append, run_body parse dt pre initGw hpre (by simp [initGw]),
    List.foldl_cons, List.foldl_append,
    run_body parse dt mid _ hmid (by simp [step, initGw])]
  cases hP : parse (dataBytes pre ++ dataBytes mid) with
  | some v => simp [step, initGw, hP]
  | none => simp [step, initGw, hP]

/-- Witness for the amended C7 on a concrete disconnect-mid-stream trace. -/
theorem client_disconnect_amended_witness :
    (runGw braceParse false
        ([Ev.response 200, Ev.data [91]] ++ Ev.resClose :: ([Ev.data [93]] ++ [Ev.eos]))).destroyed
      = false ∧
      (runGw braceParse false
          ([Ev.response 200, Ev.data [91]] ++
            Ev.resClose :: ([Ev.data [93]] ++ [Ev.eos]))).resBytes =
        dataBytes [Ev.response 200, Ev.data [91]] ∧
      (runGw braceParse false
          ([Ev.response 200, Ev.data [91]] ++
            Ev.resClose :: ([Ev.data [93]] ++ [Ev.eos]))).concatBuf =
        dataBytes [Ev.response 200, Ev.data [91]] ++ dataBytes [Ev.data [93]] ∧
      (runGw braceParse false
          ([Ev.response 200, Ev.data [91]] ++
            Ev.resClose :: ([Ev.data [93]] ++ [Ev.eos]))).cacheWrites =
        (braceParse (dataBytes [Ev.response 200, Ev.data [91]] ++
          dataBytes [Ev.data [93]])).toList ∧
      (runGw braceParse false
          ([Ev.response 200, Ev.data [91]] ++
            Ev.resClose :: ([Ev.data [93]] ++ [Ev.eos]))).resEnded = false :=
  client_disconnect_amended braceParse false [Ev.response 200, Ev.data [91]]
    [Ev.data [93]] (by decide) (by decide)

/-- Terminal outcome of one of the non-streaming handlers: a
`createError(status, msg)` forwarded to `next`, an arbitrary error value
forwarded to `next`, or a JSON body sent with `res.json`. -/
inductive HOut (ε γ : Type) : Type where
  | nextErr (status : Nat) (msg : String)
  | errFwd (e : ε)
  | json (v : γ)
  deriving DecidableEq

/-- The `GET /resolve` handler (lines 280-294): destructure `identifier`
from `req.query`; if it is missing or empty (falsy), forward
`createError(400, ...)`; otherwise `await resolve(identifier, config)`,
sending the result as JSON and forwarding any thrown error to `next`.  The
second component records every invocation of `resolve` with its
arguments. -/
def resolveHandler {ε γ α : Type} (cfg : α) (resolve : String → α → Except ε γ)
    (identifier : Option String) : HOut ε γ × List (String × α) :=
  match identifier with
  | none => (HOut.nextErr 400 "missing identifier query string parameter", [])
  | some id =>
      if id = "" then (HOut.nextErr 400 "missing identifier query string parameter", [])
      else
        match resolve id cfg with
        | .ok d => (HOut.json d, [(id, cfg)])
        | .error e => (HOut.errFwd e, [(id, cfg)])

/-- Claim C8: `GET /resolve` rejects a missing or empty `identifier` with a
400 `InvalidRequest`-style error without ever invoking the resolution
machinery, and for a non-empty identifier invokes `resolve` exactly once
with the identifier and config, returning its result as JSON or forwarding
its error. -/
theorem resolve_endpoint_behavior {ε γ α : Type} (cfg : α)
    (resolve : String → α → Except ε γ) (q : Option String) :
    ((q = none ∨ q = some "") →
        resolveHandler cfg resolve q =
          (HOut.nextErr 400 "missing identifier query string parameter", [])) ∧
      (∀ id, q = some id → id ≠ "" →
        (resolveHandler cfg resolve q).2 = [(id, cfg)] ∧
          (∀ d, resolve id cfg = Except.ok d →
            (resolveHandler cfg resolve q).1 = HOut.json d) ∧
          (∀ e, resolve id cfg = Except.error e →
            (resolveHandler cfg resolve q).1 = HOut.errFwd e)) := by
  constructor
  · rintro (rfl | rfl) <;> simp [resolveHandler]
  · rintro id rfl hid
    refine ⟨?_, ?_, ?_⟩
    · cases hr : resolve id cfg <;> simp [resolveHandler, hid, hr]
    · intro d hd; simp [resolveHandler, hid, hd]
    · intro e he; simp [resolveHandler, hid, he]

/-- Witness for C8: a DOI-shaped identifier is resolved exactly once and
its result returned as JSON. -/
theorem resolve_endpoint_behavior_witness :
    (resolveHandler (0 : Nat) (fun _ _ => (Except.ok [5] : Except Nat (List Nat)))
        (some "10.1000/xyz")).2 = [("10.1000/xyz", 0)] := by
  exact ((resolve_endpoint_behavior 0 (fun _ _ => Except.ok [5])
    (some "10.1000/xyz")).2 "10.1000/xyz" rfl (by decide)).1

/-- The `GET /review` collection route (lines 126-128): forwards
`createError(500, 'Not implemented yet')` and touches nothing else; the
second component records database invocations (there are none). -/
def reviewSearchHandler {α β : Type} (_db : α → β) (_q : α) :
    HOut Nat (List Nat) × List α :=
  (HOut.nextErr 500 "Not implemented yet", [])

/-- The `GET /request` collection route (lines 150-152), identical body. -/
def requestSearchHandler {α β : Type} (_db : α → β) (_q : α) :
    HOut Nat (List Nat) × List α :=
  (HOut.nextErr 500 "Not implemented yet", [])

/-- The `GET /user` collection route (lines 174-176), identical body. -/
def userSearchHandler {α β : Type} (_db : α → β) (_q : α) :
    HOut Nat (List Nat) × List α :=
  (HOut.nextErr 500 "Not implemented yet", [])

/-- The `GET /role` collection route (lines 198-200), identical body. -/
def roleSearchHandler {α β : Type} (_db : α → β) (_q : α) :
    HOut Nat (List Nat) × List α :=
  (HOut.nextErr 500 "Not implemented yet", [])

/-- Claim C9: the collection search routes `GET /review`, `GET /request`,
`GET /user` and `GET /role` unconditionally forward a 500
`Not implemented yet` error and never invoke the database. -/
theorem collection_routes_not_implemented {α β : Type} (db : α → β) (q : α) :
    reviewSearchHandler db q = (HOut.nextErr 500 "Not implemented yet", []) ∧
      requestSearchHandler db q = (HOut.nextErr 500 "Not implemented yet", []) ∧
      userSearchHandler db q = (HOut.nextErr 500 "Not implemented yet", []) ∧
      roleSearchHandler db q = (HOut.nextErr 500 "Not implemented yet", []) :=
  ⟨rfl, rfl, rfl, rfl⟩

/-- The `POST /action` handler (lines 226-240): reject unauthenticated
requests with `createError(401, 'Login required')` before touching the
database; otherwise `await req.db.post(req.body, { user: req.user })`,
forwarding a thrown error to `next` and else sending the returned value as
JSON.  The second component records every `req.db.post` invocation. -/
def postActionHandler {α β γ ε : Type} (isAuthenticated : Bool) (user : α)
    (body : β) (dbPost : β → α → Except ε γ) : HOut ε γ × List (β × α) :=
  if isAuthenticated = false then (HOut.nextErr 401 "Login required", [])
  else
    match dbPost body user with
    | .ok v => (HOut.json v, [(body, user)])
    | .error e => (HOut.errFwd e, [(body, user)])

/-- Claim C10: an unauthenticated `POST /action` is rejected with a 401
`Login required` error and `req.db.post` is never invoked; an
authenticated one invokes `req.db.post` exactly once, forwarding its
thrown error (sending no JSON body) or else responding with exactly the
value it returned. -/
theorem post_action_behavior {α β γ ε : Type} (isAuth : Bool) (user : α)
    (body : β) (dbPost : β → α → Except ε γ) :
    (isAuth = false →
        postActionHandler isAuth user body dbPost =
          (HOut.nextErr 401 "Login required", [])) ∧
      (isAuth = true →
        (postActionHandler isAuth user body dbPost).2 = [(body, user)] ∧
          (∀ v, dbPost body user = Except.ok v →
            (postActionHandler isAuth user body dbPost).1 = HOut.json v) ∧
          (∀ e, dbPost body user = Except.error e →
            (postActionHandler isAuth user body dbPost).1 = HOut.errFwd e)) := by
  constructor
  · rintro rfl; simp [postActionHandler]
  · rintro rfl
    refine ⟨?_, ?_, ?_⟩
    · cases hr : dbPost body user <;> simp [postActionHandler, hr]
    · intro v hv; simp [postActionHandler, hv]
    · intro e he; simp [postActionHandler, he]

/-- Witness for C10: an authenticated request whose `db.post` succeeds gets
exactly the returned value as its JSON body. -/
theorem post_action_behavior_witness :
    (postActionHandler true (2 : Nat) (3 : Nat)
        (fun b u => (Except.ok (b + u) : Except Nat Nat))).1 = HOut.json 5 :=
  (((post_action_behavior true 2 3 (fun b u => Except.ok (b + u))).2 rfl).2.1) 5 rfl

end RapidPrereview
